import Mathlib

/-!
# Verification of emu2 `datload.py` ingestion pipeline

A shallow embedding of the ingestion logic of `datload.py`:

* the archive-listing table parser (`scanroms`), including header location
  via divider lines, column-offset derivation, row slicing and the batch
  loop with its per-archive error handling;
* the DAT catalog walker (`pulldata`), restricted to the construction of
  the `games` mapping (header metadata and the diagnostic accumulators
  `atts`/`childs` do not affect the games mapping and are not modelled);
* the archive discovery glob (`scanroms`' file-collection loop);
* the scoped temporary-directory resource management (`tempdir`/`tempzip`),
  modelled as an operation trace.

Python strings are modelled as Lean `String`s (slicing by code point, as in
Python), dictionaries as insertion-ordered association lists with
overwrite-in-place semantics, and fatal `exit()` calls / uncaught exceptions
as `Except` errors.
-/

namespace Datload

/-- Helper for `pySplit`: walk the characters, accumulating the current
token (reversed) and emitting it at each whitespace run or at the end. -/
def pySplitAux : List Char → List Char → List String
  | [], acc => if acc.isEmpty then [] else [String.mk acc.reverse]
  | c :: cs, acc =>
    if c.isWhitespace then
      if acc.isEmpty then pySplitAux cs []
      else String.mk acc.reverse :: pySplitAux cs []
    else pySplitAux cs (c :: acc)

/-- Python `str.split()` with no argument: split on runs of whitespace,
dropping empty tokens. -/
def pySplit (s : String) : List String :=
  pySplitAux s.toList []

/-- Python `str.strip()`: remove leading and trailing whitespace. -/
def pyStrip (s : String) : String :=
  String.mk (((s.toList.dropWhile Char.isWhitespace).reverse.dropWhile
    Char.isWhitespace).reverse)

/-- Python `len(s)` (in code points). -/
def pyLen (s : String) : Nat :=
  s.toList.length

/-- Python `s.startswith('-')`: the string is nonempty and its first
character is a dash. -/
def startsWithDash (s : String) : Bool :=
  match s.toList with
  | [] => false
  | c :: _ => c = '-'

/-- Python slice `s[b:e]` (by code point, clamping out-of-range indices). -/
def pySlice (s : String) (b e : Nat) : String :=
  String.mk ((s.toList.take e).drop b)

/-- Python dictionary insertion `d[k] = v`: overwrite in place if the key is
present (keeping its position), otherwise append at the end. -/
def dictInsert {α : Type} (d : List (String × α)) (k : String) (v : α) :
    List (String × α) :=
  if (d.map Prod.fst).contains k then
    d.map (fun kv => if kv.1 = k then (k, v) else kv)
  else
    d ++ [(k, v)]

/-- Python dictionary lookup `d.get(k)` / `d[k]` (as an `Option`). -/
def dictGet? {α : Type} (d : List (String × α)) (k : String) : Option α :=
  (d.find? (fun kv => kv.1 = k)).map Prod.snd

/-- A Python value stored in a `FileRecord` field: the listing parser deals
in strings sliced from the line, but a field could in principle hold a
number; the distinction matters when checking which one the code stores. -/
inductive PyVal where
  | str : String → PyVal
  | int : Int → PyVal
deriving Repr, DecidableEq

/-- `true` exactly on the numeric constructor of `PyVal`. -/
def PyVal.isNum : PyVal → Bool
  | .str _ => false
  | .int _ => true

/-! ## Archive listing table parser (`scanroms`, lines 175–231) -/

/-- One parsed row of the listing table: a dict from column header to value
(`info` in the source). -/
abbrev FileRecord := List (String × PyVal)

/-- The fatal errors that can escape the listing-parsing loop: the
`exit()` calls on a header mismatch, and the uncaught `KeyError` from
`info['Name']` when the Name column was blank. -/
inductive ScanErr where
  | headerMismatch : ScanErr
  | keyError : ScanErr
deriving Repr, DecidableEq

/-- `validheaders` (line 194). -/
def validheaders : List String :=
  ["Date", "Time", "Attr", "Size", "Compressed", "Name"]

/-- The header validation of lines 195–201: the header token list must have
the same length as `validheaders` and contain every valid header. -/
def headersValid (headers : List String) : Bool :=
  headers.length = validheaders.length &&
    validheaders.all (fun v => headers.contains v)

/-- The offset-accumulation loop of lines 204–207: for each token, append
the previous offset plus the token's length plus one. -/
def appendOffsets (init : List Nat) (ps : List String) : List Nat :=
  ps.foldl (fun acc p => acc ++ [acc.getLastD 0 + p.length + 1]) init

/-- `offsets[-1] = offsets[-1] + 1` (line 208). -/
def bumpLast (l : List Nat) : List Nat :=
  l.dropLast ++ [l.getLastD 0 + 1]

/-- The full column-offset derivation of lines 179 and 202–208: offsets
start as `[0]`, the fixed offsets `11` and `20` are appended, then the loop
`for part in parts[1:len(headers)-2]` accumulates over the tokens of the
DIVIDER line (`parts`), and finally the last offset is incremented. -/
def computeOffsets (parts : List String) (numHeaders : Nat) : List Nat :=
  bumpLast (appendOffsets [0, 11, 20] ((parts.drop 1).take (numHeaders - 3)))

/-- The divider-line test of lines 186–190: `dividers` stays true iff every
whitespace token of the line starts with `'-'`. -/
def isDivider (line : String) : Bool :=
  (pySplit line).all (fun p => startsWithDash p)

/-- Slicing one field out of a data row (lines 215–222): the slice runs from
this column's offset to the next one (or to the end of the line for the last
column), and every column but the last is stripped. -/
def sliceField (line : String) (offsets : List Nat) (index : Nat) : String :=
  let b := offsets.getD index 0
  let e := if index + 1 < offsets.length then offsets.getD (index + 1) 0
           else pyLen line
  let subline := pySlice line b e
  if index < offsets.length - 1 then pyStrip subline else subline

/-- Building the `info` dict for one data row (lines 214–225): a column
whose sliced value is blank after stripping is skipped, otherwise the sliced
string is stored under that column's header. -/
def parseRow (headers : List String) (offsets : List Nat) (line : String) :
    FileRecord :=
  (List.range offsets.length).foldl
    (fun info index =>
      let subline := sliceField line offsets index
      if pyStrip subline = "" then info
      else dictInsert info (headers.getD index "") (PyVal.str subline))
    []

/-- Lines 226–227: `subname = info['Name']` (a `KeyError` when the Name
column was blank and therefore skipped) followed by
`fileinfo['files'][subname] = info`. -/
def parseDataRow (headers : List String) (offsets : List Nat) (line : String) :
    Except ScanErr (String × FileRecord) :=
  let info := parseRow headers offsets line
  match dictGet? info "Name" with
  | none => .error .keyError
  | some (PyVal.str nm) => .ok (nm, info)
  | some (PyVal.int _) => .error .keyError

/-- The loop state of the line loop (lines 176–182). -/
structure ScanState where
  started : Bool
  last : List String
  headers : List String
  offsets : List Nat
  files : List (String × FileRecord)

/-- The per-archive line loop of lines 183–230, as a recursion over the
remaining lines. A divider seen while not yet started (with more than four
tokens) promotes `last` to the header row, validates it (`exit()` on
mismatch, modelled as `.error .headerMismatch`), and derives the offsets; a
divider seen after starting breaks the loop; a data row is sliced and
inserted under its Name; any other line is buffered in `last`. -/
def scanLines : List String → ScanState → Except ScanErr (List (String × FileRecord))
  | [], st => .ok st.files
  | line :: rest, st =>
    let parts := pySplit line
    let dividers := isDivider line
    if !st.started && parts.length > 4 && dividers then
      let headers := st.last
      if headersValid headers then
        scanLines rest { st with
          started := true
          headers := headers
          offsets := computeOffsets parts headers.length }
      else .error .headerMismatch
    else if st.started then
      if dividers then .ok st.files
      else
        match parseDataRow st.headers st.offsets line with
        | .error e => .error e
        | .ok (nm, info) =>
          scanLines rest { st with files := dictInsert st.files nm info }
    else
      scanLines rest { st with last := parts }

/-- Parsing one archive's listing text (given as its list of lines), from
the initial loop state of lines 176–180. -/
def parseListing (lines : List String) : Except ScanErr (List (String × FileRecord)) :=
  scanLines lines { started := false, last := [], headers := [], offsets := [0], files := [] }

/-- One archive's inventory (`fileinfo`, lines 180–182). -/
structure Inventory where
  path : String
  files : List (String × FileRecord)
deriving Repr, DecidableEq

/-- The batch loop of `scanroms` (lines 167–231) over already-listed
archives. Each input pairs the archive path with the outcome of
`patoolib.list_archive`: a `.error` there is caught by the
`try/except` of lines 169–174 and the archive is skipped, but any error
raised by the parsing loop itself (header `exit()`, `KeyError`) is outside
that handler and aborts the whole batch. -/
def scanroms : List (String × Except Unit (List String)) →
    Except ScanErr (List (String × Inventory))
  | [] => .ok []
  | (name, listing) :: rest =>
    match listing with
    | .error _ => scanroms rest
    | .ok lines =>
      match parseListing lines with
      | .error e => .error e
      | .ok files =>
        match scanroms rest with
        | .error e => .error e
        | .ok out => .ok ((name, { path := name, files := files }) :: out)

/-! ## DAT catalog walker (`pulldata`, lines 97–157)

Only the construction of the `games` mapping is modelled: the header
metadata loop and the `atts`/`childs` accumulators never feed back into the
games mapping. An XML element carries a tag, an attribute dict, its direct
children and an optional text. -/

/-- An XML element as seen by `ElementTree`: `attrib` is the attribute dict
(document order), `text` is `None` for an element with no text. -/
structure XElem where
  tag : String
  attrib : List (String × String)
  children : List XElem
  text : Option String

/-- `element.get(key)` / `element.attrib.get(key)`. -/
def getAttr (e : XElem) (k : String) : Option String :=
  dictGet? e.attrib k

/-- `nonmeta` (line 114): the part-like child tags. -/
def nonmeta : List String :=
  ["rom", "release", "device_ref", "sample", "biosset", "disk"]

/-- A value stored in a game dict: a string (attribute or child text), the
Python `None` stored when a scalar child has neither text nor status, or a
pluralized collection (`roms`, …) mapping each part's name to its item
dict. -/
inductive GVal where
  | str : String → GVal
  | pyNone : GVal
  | coll : List (String × List (String × String)) → GVal
deriving Repr, DecidableEq

/-- A game dict (`game` in the source). -/
abbrev Game := List (String × GVal)

/-- Fatal errors escaping `pulldata`: the `exit()` of line 139 when a
part-like child has no (or a falsy) name, and the `TypeError` Python would
raise on line 144 if `game[taglist]` already held a non-dict value. -/
inductive PullErr where
  | exitNoSubName : PullErr
  | typeErrorColl : PullErr
deriving Repr, DecidableEq

/-- Lines 134, 140, 145–146: the item dict of one part-like child, starting
with its `type` discriminator and then every attribute of the child. -/
def buildItem (tag : String) (subatt : List (String × String)) :
    List (String × String) :=
  subatt.foldl (fun item kv => dictInsert item kv.1 kv.2) [("type", tag)]

/-- Lines 129–153: process one direct child of a game entry. A part-like
child requires a truthy `name` (else `exit()`), and is stored in the
pluralized collection under that name; any other child is a scalar whose
text is stored under its tag, falling back to a `status` attribute stored
under `tag + "status"` when the text is falsy, and to the falsy text value
itself when the status is also falsy. -/
def processChild (game : Game) (child : XElem) : Except PullErr Game :=
  if nonmeta.contains child.tag then
    match getAttr child "name" with
    | none => .error .exitNoSubName
    | some subname =>
      if subname = "" then .error .exitNoSubName
      else
        let taglist := child.tag ++ "s"
        let item := buildItem child.tag child.attrib
        match dictGet? game taglist with
        | none =>
          .ok (dictInsert game taglist (GVal.coll (dictInsert [] subname item)))
        | some (GVal.coll c) =>
          .ok (dictInsert game taglist (GVal.coll (dictInsert c subname item)))
        | some _ => .error .typeErrorColl
  else
    match child.text with
    | some t =>
      if t = "" then
        match getAttr child "status" with
        | some st =>
          if st = "" then .ok (dictInsert game child.tag (GVal.str st))
          else .ok (dictInsert game (child.tag ++ "status") (GVal.str st))
        | none => .ok (dictInsert game child.tag GVal.pyNone)
      else .ok (dictInsert game child.tag (GVal.str t))
    | none =>
      match getAttr child "status" with
      | some st =>
        if st = "" then .ok (dictInsert game child.tag (GVal.str st))
        else .ok (dictInsert game (child.tag ++ "status") (GVal.str st))
      | none => .ok (dictInsert game child.tag GVal.pyNone)

/-- Lines 116–153: build one game dict from an entry element — all of the
entry's own attributes first, then each direct child in order. -/
def buildGame (entry : XElem) : Except PullErr Game :=
  (entry.children).foldlM processChild
    (entry.attrib.foldl (fun g kv => dictInsert g kv.1 (GVal.str kv.2)) [])

/-- Lines 108–110: use the `game` children of the document root, falling
back to `machine` children when there are none. -/
def selectEntries (root : XElem) : List XElem :=
  let games := root.children.filter (fun e => e.tag = "game")
  if games.length < 1 then root.children.filter (fun e => e.tag = "machine")
  else games

/-- The entry loop of lines 115–153 over a list of entries: an entry whose
`name` attribute is missing or falsy is reported and skipped; otherwise its
game dict is built (propagating the fatal errors) and stored under the name,
overwriting any earlier entry with that name. -/
def pullGamesAux : List XElem → List (String × Game) → Except PullErr (List (String × Game))
  | [], games => .ok games
  | e :: rest, games =>
    match getAttr e "name" with
    | none => pullGamesAux rest games
    | some name =>
      if name = "" then pullGamesAux rest games
      else
        match buildGame e with
        | .error err => .error err
        | .ok g => pullGamesAux rest (dictInsert games name g)

/-- The games mapping built by `pulldata` for one DAT document. -/
def pullGames (root : XElem) : Except PullErr (List (String × Game)) :=
  pullGamesAux (selectEntries root) []

/-- The entries of `entries` whose `name` attribute equals `n`. -/
def namedEntries (entries : List XElem) (n : String) : List XElem :=
  entries.filter (fun e => getAttr e "name" = some n)

/-- The non-empty `name` attribute values of the selected entries: exactly
the names that survive the falsy-name skip of lines 118–121. -/
def nonEmptyNames (root : XElem) : List String :=
  (selectEntries root).filterMap (fun e =>
    match getAttr e "name" with
    | some n => if n = "" then none else some n
    | none => none)

/-! ## Archive discovery (`scanroms`, lines 159–166)

The file-collection loop runs `glob.glob(f'{location}\\**\\*{typ}')` for
each root location and each extension — without `recursive=True`. A root's
contents are modelled as the list of its files, each given as the list of
path components below the root. One pattern segment matches one path
component; per the documented behaviour of Python's `glob` module, `**`
without `recursive=True` is treated exactly like `*` and matches a single
component. -/

/-- One segment of a glob pattern: `*`-like (matches any one component —
`**` behaves this way because `recursive=True` is not passed), or
`*<suffix>` (matches a component ending in the suffix). -/
inductive Seg where
  | star : Seg
  | starThen : String → Seg

/-- Python `s.endswith(suf)`, structurally on the character lists. -/
def pyEndsWith (s suf : String) : Bool :=
  suf.toList.isSuffixOf s.toList

/-- Whether one pattern segment matches one path component. -/
def segMatch : Seg → String → Bool
  | .star, _ => true
  | .starThen suf, s => pyEndsWith s suf

/-- A pattern matches a path iff it has the same number of components and
each segment matches the corresponding component. -/
def globMatch : List Seg → List String → Bool
  | [], [] => true
  | seg :: ps, c :: cs => segMatch seg c && globMatch ps cs
  | _, _ => false

/-- The pattern of line 166 relative to the location: `**\*{typ}`. -/
def scanPattern (typ : String) : List Seg :=
  [Seg.star, Seg.starThen typ]

/-- Lines 159–166: defaulting of `types` to `['.7z', '.zip']` and the
nested collection loop — for each location, for each extension, every file
under the location matching the glob pattern, in that order. -/
def findArchives (locations : List (List (List String))) (types : List String) :
    List (List String) :=
  let types := if types.isEmpty then [".7z", ".zip"] else types
  locations.flatMap (fun fs =>
    types.flatMap (fun typ => fs.filter (fun p => globMatch (scanPattern typ) p)))

/-- Modelled from the spec's reading of the claim: the files lying anywhere
under each root, at any depth, whose names end in one of the extensions. -/
def findArchivesSpecC8 (locations : List (List (List String))) (types : List String) :
    List (List String) :=
  let types := if types.isEmpty then [".7z", ".zip"] else types
  locations.flatMap (fun fs =>
    types.flatMap (fun typ =>
      fs.filter (fun p => p ≠ [] && pyEndsWith (p.getLastD "") typ)))

/-! ## Scoped temporary directory (`tempdir`/`tempzip`, lines 17–32)

The checksum pass's resource management is modelled as a trace of
filesystem operations. The body of a `with` block either returns a value or
raises; `tempdir` runs `os.makedirs` before its `try`, and the `finally`
runs `shutil.rmtree` on both the normal and the raising path, re-raising
the body's exception afterwards. The collision-free unique name drawn from
`uuid.uuid4()` is a parameter of the model. -/

/-- A filesystem-visible operation of the checksum pass. -/
inductive FsOp where
  | makedirs : String → FsOp
  | rmtree : String → FsOp
  | extract : String → String → FsOp
  | bodyOp : String → FsOp
deriving Repr, DecidableEq

/-- The outcome of a Python block: a value, or a raised exception. -/
inductive Res (α : Type) where
  | ok : α → Res α
  | exn : String → Res α
deriving Repr, DecidableEq

/-- `tempdir()` (lines 17–26): make the scratch directory named by the
fresh uuid, run the body inside the `try`, and remove the directory in the
`finally` on every path, propagating the body's outcome. -/
def tempdirRun {α : Type} (unique : String) (body : String → Res α × List FsOp) :
    Res α × List FsOp :=
  let r := body unique
  (r.1, FsOp.makedirs unique :: r.2 ++ [FsOp.rmtree unique])

/-- `tempzip(zipfile)` (lines 28–32): inside a `tempdir`, extract the
archive into the scratch directory (the extraction collaborator's outcome
is a parameter) and, when extraction succeeds, run the body on the scratch
directory. An extraction failure skips the body and propagates. -/
def tempzipRun {α : Type} (unique zipfile : String) (extractRes : Res Unit)
    (body : String → Res α × List FsOp) : Res α × List FsOp :=
  tempdirRun unique (fun zipdir =>
    match extractRes with
    | .exn e => (.exn e, [FsOp.extract zipfile zipdir])
    | .ok _ =>
      let r := body zipdir
      (r.1, FsOp.extract zipfile zipdir :: r.2))

/-! ## Spec readings and concrete inputs

Definitions named `...Spec...` follow the words of the specification (for
comparison against the definitions above, which follow the source); the
remaining definitions here are concrete inputs used by the theorems. -/

/-- Whether an `Except` value is a success. -/
def isOkE {ε α : Type} : Except ε α → Bool
  | .ok _ => true
  | .error _ => false

/-- The shape of every value the row parser stores: a string whose strip is
non-blank. -/
def goodVal (v : PyVal) : Prop :=
  ∃ s, v = PyVal.str s ∧ pyStrip s ≠ ""

/-- Offset derivation as the spec words it: accumulate over the HEADER
tokens from the third up to but excluding the last two header names. -/
def specOffsetsC2 (headers : List String) : List Nat :=
  bumpLast (appendOffsets [0, 11, 20] ((headers.drop 2).take (headers.length - 4)))

/-- Divider classification as the spec words it: every whitespace-separated
token consists solely of `-` characters. -/
def isDividerSpecC5 (line : String) : Bool :=
  (pySplit line).all (fun p => p.toList.all (fun c => c = '-'))

/-- A 7-Zip-style listing header row. -/
def exHeader : String :=
  "   Date      Time    Attr         Size   Compressed  Name"

/-- The matching divider row (five dash groups; Date and Time share the
first group). -/
def exDivider : String :=
  "------------------- ----- ------------ ------------  ------------------------"

/-- A data row whose Name column (starting at offset 53) holds a name with
embedded spaces. -/
def exRow : String :=
  "2024-01-02 03:04:05 ....A           123           456Some Game (USA).sfc"

/-- A well-formed single-row listing. -/
def goodLines : List String := [exHeader, exDivider, exRow, exDivider]

/-- A data row that ends before the Name column's offset: its Name slice is
blank. -/
def rowBlank : String :=
  "2024-01-02 03:04:05 D....             0             0"

/-- A listing with a valid header whose single data row has a blank Name
column. -/
def blankNameLines : List String := [exHeader, exDivider, rowBlank, exDivider]

/-- A header row with only four column names (`Size`/`Compressed` missing). -/
def badHeader : String := "   Date      Time    Attr  Name"

/-- A listing whose header set does not match the six expected columns. -/
def badLines : List String := [badHeader, exDivider]

/-- The record parsed from `exRow`. -/
def goodRec : FileRecord :=
  [("Date", PyVal.str "2024-01-02"), ("Time", PyVal.str "03:04:05"),
   ("Attr", PyVal.str "....A"), ("Size", PyVal.str "123"),
   ("Compressed", PyVal.str "456"), ("Name", PyVal.str "Some Game (USA).sfc")]

/-- The files mapping parsed from `goodLines`. -/
def goodFiles : List (String × FileRecord) :=
  [("Some Game (USA).sfc", goodRec)]

/-- A game element named `A` with an attribute `v = 1`. -/
def gA1 : XElem :=
  { tag := "game", attrib := [("name", "A"), ("v", "1")], children := [], text := none }

/-- A second game element also named `A`, with `v = 2`. -/
def gA2 : XElem :=
  { tag := "game", attrib := [("name", "A"), ("v", "2")], children := [], text := none }

/-- A catalog document with two game elements sharing the name `A`. -/
def dupDoc : XElem :=
  { tag := "datafile", attrib := [], children := [gA1, gA2], text := none }

/-- A game element carrying an empty `name` attribute. -/
def gEmpty : XElem :=
  { tag := "game", attrib := [("name", "")], children := [], text := none }

/-- A catalog document whose only game element has an empty name. -/
def emptyNameDoc : XElem :=
  { tag := "datafile", attrib := [], children := [gEmpty], text := none }

/-- A root location with archives at depth one, two and three. -/
def exFs : List (List String) :=
  [["d.zip"], ["a", "b.zip"], ["a", "x", "c.zip"]]

/-! ## Dictionary lemmas -/

theorem dictGet?_cons {α : Type} (k₀ : String) (v₀ : α) (t : List (String × α))
    (k : String) :
    dictGet? ((k₀, v₀) :: t) k = if k₀ = k then some v₀ else dictGet? t k := by
  by_cases h : k₀ = k <;> simp [dictGet?, List.find?, h]

theorem dictInsert_cons_ne {α : Type} (k₀ : String) (v₀ : α) (t : List (String × α))
    (k : String) (v : α) (hk : k₀ ≠ k) :
    dictInsert ((k₀, v₀) :: t) k v = (k₀, v₀) :: dictInsert t k v := by
  unfold dictInsert
  have hcontains : ((((k₀, v₀) :: t).map Prod.fst).contains k) =
      ((t.map Prod.fst).contains k) := by
    simp only [List.map_cons, List.contains_cons]
    have : (k == k₀) = false := by
      simp only [beq_eq_false_iff_ne, ne_eq]
      exact fun h => hk h.symm
    rw [this, Bool.false_or]
  rw [hcontains]
  by_cases h : (t.map Prod.fst).contains k
  · simp only [h, if_pos, List.map_cons, if_neg hk]
  · simp only [h, if_neg, List.cons_append]
    simp [h]

theorem dictInsert_cons_eq {α : Type} (k₀ : String) (v₀ : α) (t : List (String × α))
    (v : α) :
    dictInsert ((k₀, v₀) :: t) k₀ v =
      (k₀, v) :: t.map (fun kv => if kv.1 = k₀ then (k₀, v) else kv) := by
  unfold dictInsert
  have : ((((k₀, v₀) :: t).map Prod.fst).contains k₀) = true := by
    simp [List.contains_cons]
  rw [this]
  simp

theorem dictGet?_map_update_ne {α : Type} (t : List (String × α)) (k k' : String)
    (v : α) (h : k' ≠ k) :
    dictGet? (t.map (fun kv => if kv.1 = k then (k, v) else kv)) k' =
      dictGet? t k' := by
  induction t with
  | nil => rfl
  | cons kv t ih =>
    cases kv with
    | mk k₀ v₀ =>
      by_cases hk : k₀ = k
      · subst hk
        simp only [List.map_cons, if_pos rfl]
        rw [dictGet?_cons, dictGet?_cons, if_neg (fun hh => h hh.symm),
          if_neg (fun hh => h hh.symm)]
        exact ih
      · simp only [List.map_cons, if_neg hk]
        rw [dictGet?_cons, dictGet?_cons]
        by_cases hk' : k₀ = k'
        · simp [hk']
        · rw [if_neg hk', if_neg hk']
          exact ih

theorem dictGet?_map_update_self {α : Type} (t : List (String × α)) (k : String)
    (v : α) :
    dictGet? (t.map (fun kv => if kv.1 = k then (k, v) else kv)) k =
      (dictGet? t k).map (fun _ => v) := by
  induction t with
  | nil => rfl
  | cons kv t ih =>
    cases kv with
    | mk k₀ v₀ =>
      by_cases hk : k₀ = k
      · subst hk
        simp [dictGet?_cons]
      · simp only [List.map_cons, if_neg hk]
        rw [dictGet?_cons, dictGet?_cons, if_neg hk, if_neg hk]
        exact ih

theorem dictGet?_dictInsert_self {α : Type} (d : List (String × α)) (k : String)
    (v : α) : dictGet? (dictInsert d k v) k = some v := by
  induction d with
  | nil =>
    unfold dictInsert
    simp [dictGet?_cons]
  | cons kv t ih =>
    cases kv with
    | mk k₀ v₀ =>
      by_cases hk : k₀ = k
      · subst hk
        rw [dictInsert_cons_eq, dictGet?_cons, if_pos rfl]
      · rw [dictInsert_cons_ne _ _ _ _ _ hk, dictGet?_cons, if_neg hk]
        exact ih

theorem dictGet?_dictInsert_ne {α : Type} (d : List (String × α)) (k k' : String)
    (v : α) (h : k' ≠ k) :
    dictGet? (dictInsert d k v) k' = dictGet? d k' := by
  induction d with
  | nil =>
    unfold dictInsert
    simp [dictGet?_cons, Ne.symm h]
  | cons kv t ih =>
    cases kv with
    | mk k₀ v₀ =>
      by_cases hk : k₀ = k
      · subst hk
        rw [dictInsert_cons_eq, dictGet?_cons, dictGet?_cons]
        by_cases hk' : k₀ = k'
        · exact absurd hk'.symm h
        · rw [if_neg hk', if_neg hk']
          exact dictGet?_map_update_ne _ _ _ _ h
      · rw [dictInsert_cons_ne _ _ _ _ _ hk, dictGet?_cons, dictGet?_cons]
        by_cases hk' : k₀ = k'
        · rw [if_pos hk', if_pos hk']
        · rw [if_neg hk', if_neg hk']
          exact ih

theorem mem_dictInsert {α : Type} {d : List (String × α)} {k : String} {v : α}
    {kv : String × α} (h : kv ∈ dictInsert d k v) : kv ∈ d ∨ kv = (k, v) := by
  unfold dictInsert at h
  split at h
  · rcases List.mem_map.mp h with ⟨kv₀, hmem, heq⟩
    by_cases hk : kv₀.1 = k
    · right; rw [if_pos hk] at heq; exact heq.symm
    · left; rw [if_neg hk] at heq; exact heq ▸ hmem
  · rcases List.mem_append.mp h with h1 | h1
    · left; exact h1
    · right; simpa using h1

theorem dictGet?_mem {α : Type} {d : List (String × α)} {k : String} {v : α}
    (h : dictGet? d k = some v) : (k, v) ∈ d := by
  unfold dictGet? at h
  rcases Option.map_eq_some'.mp h with ⟨kv, hfind, hsnd⟩
  have hp := List.find?_some hfind
  have hmem := List.mem_of_find?_eq_some hfind
  have hk : kv.1 = k := by simpa using hp
  cases kv with
  | mk k₀ v₀ => simp at hk hsnd; rw [hk, hsnd] at hmem; exact hmem

/-! ## Lemmas about the catalog walker -/

theorem namedEntries_cons_skip (e : XElem) (rest : List XElem) (n : String)
    (h : ¬ getAttr e "name" = some n) :
    namedEntries (e :: rest) n = namedEntries rest n := by
  simp [namedEntries, List.filter_cons, h]

theorem namedEntries_cons_mem (e : XElem) (rest : List XElem) (n : String)
    (h : getAttr e "name" = some n) :
    namedEntries (e :: rest) n = e :: namedEntries rest n := by
  simp [namedEntries, List.filter_cons, h]

/-- If no entry carries the name `n`, the walk leaves the slot for `n`
untouched. -/
theorem pullGamesAux_lookup_none (entries : List XElem) :
    ∀ (g0 games : List (String × Game)) (n : String), n ≠ "" →
    namedEntries entries n = [] →
    pullGamesAux entries g0 = .ok games →
    dictGet? games n = dictGet? g0 n := by
  induction entries with
  | nil =>
    intro g0 games n _ _ hok
    cases hok
    rfl
  | cons e rest ih =>
    intro g0 games n hn hne hok
    unfold pullGamesAux at hok
    cases hga : getAttr e "name" with
    | none =>
      rw [hga] at hok
      dsimp only at hok
      rw [namedEntries_cons_skip _ _ _ (by simp [hga])] at hne
      exact ih g0 games n hn hne hok
    | some name =>
      rw [hga] at hok
      dsimp only at hok
      by_cases hname : name = ""
      · rw [if_pos hname] at hok
        rw [namedEntries_cons_skip _ _ _ (by
          simp only [hga, Option.some.injEq]
          exact fun h => hn (h ▸ hname))] at hne
        exact ih g0 games n hn hne hok
      · rw [if_neg hname] at hok
        have hnn : name ≠ n := by
          intro h
          have : e ∈ namedEntries (e :: rest) n :=
            List.mem_filter.mpr ⟨List.mem_cons_self _ _, by simp [hga, h]⟩
          rw [hne] at this
          exact absurd this (List.not_mem_nil e)
        rw [namedEntries_cons_skip _ _ _ (by simp [hga, hnn])] at hne
        cases hbg : buildGame e with
        | error err => rw [hbg] at hok; dsimp only at hok; exact absurd hok (by simp)
        | ok g =>
          rw [hbg] at hok; dsimp only at hok
          rw [ih (dictInsert g0 name g) games n hn hne hok]
          exact dictGet?_dictInsert_ne _ _ _ _ (Ne.symm hnn)

/-- The slot for `n` after the walk holds the game built from the LAST
entry named `n` (last-write-wins). -/
theorem pullGamesAux_lookup_last (entries : List XElem) :
    ∀ (g0 games : List (String × Game)) (n : String) (e : XElem), n ≠ "" →
    (namedEntries entries n).getLast? = some e →
    pullGamesAux entries g0 = .ok games →
    ∃ g, buildGame e = .ok g ∧ dictGet? games n = some g := by
  induction entries with
  | nil =>
    intro g0 games n e _ hlast _
    simp [namedEntries] at hlast
  | cons e0 rest ih =>
    intro g0 games n e hn hlast hok
    unfold pullGamesAux at hok
    cases hga : getAttr e0 "name" with
    | none =>
      rw [hga] at hok
      dsimp only at hok
      rw [namedEntries_cons_skip _ _ _ (by simp [hga])] at hlast
      exact ih g0 games n e hn hlast hok
    | some name =>
      rw [hga] at hok
      dsimp only at hok
      by_cases hname : name = ""
      · rw [if_pos hname] at hok
        rw [namedEntries_cons_skip _ _ _ (by
          simp only [hga, Option.some.injEq]
          exact fun h => hn (h ▸ hname))] at hlast
        exact ih g0 games n e hn hlast hok
      · rw [if_neg hname] at hok
        cases hbg : buildGame e0 with
        | error err => rw [hbg] at hok; dsimp only at hok; exact absurd hok (by simp)
        | ok g =>
          rw [hbg] at hok; dsimp only at hok
          by_cases heq : name = n
          · subst heq
            rw [namedEntries_cons_mem _ _ _ hga] at hlast
            cases hrest : namedEntries rest name with
            | nil =>
              rw [hrest] at hlast
              simp only [List.getLast?_singleton, Option.some.injEq] at hlast
              subst hlast
              refine ⟨g, hbg, ?_⟩
              rw [pullGamesAux_lookup_none rest (dictInsert g0 name g) games
                name hn hrest hok]
              exact dictGet?_dictInsert_self _ _ _
            | cons x xs =>
              rw [hrest] at hlast
              rw [List.getLast?_cons_cons] at hlast
              have hlast' : (namedEntries rest name).getLast? = some e := by
                rw [hrest]
                cases xs with
                | nil => simpa using hlast
                | cons y ys => rw [List.getLast?_cons_cons]; exact hlast
              exact ih (dictInsert g0 name g) games name e hn hlast' hok
          · rw [namedEntries_cons_skip _ _ _ (by simp [hga, heq])] at hlast
            exact ih (dictInsert g0 name g) games n e hn hlast hok

/-- Every key inserted by the walk is a non-empty name. -/
theorem pullGamesAux_keys_ne (entries : List XElem) :
    ∀ (g0 games : List (String × Game)),
    pullGamesAux entries g0 = .ok games →
    (∀ kv ∈ g0, kv.1 ≠ "") → ∀ kv ∈ games, kv.1 ≠ "" := by
  induction entries with
  | nil =>
    intro g0 games hok h0
    cases hok
    exact h0
  | cons e rest ih =>
    intro g0 games hok h0
    unfold pullGamesAux at hok
    cases hga : getAttr e "name" with
    | none =>
      rw [hga] at hok
      dsimp only at hok
      exact ih g0 games hok h0
    | some name =>
      rw [hga] at hok
      dsimp only at hok
      by_cases hname : name = ""
      · rw [if_pos hname] at hok
        exact ih g0 games hok h0
      · rw [if_neg hname] at hok
        cases hbg : buildGame e with
        | error err => rw [hbg] at hok; dsimp only at hok; exact absurd hok (by simp)
        | ok g =>
          rw [hbg] at hok; dsimp only at hok
          refine ih (dictInsert g0 name g) games hok ?_
          intro kv hkv
          rcases mem_dictInsert hkv with h | h
          · exact h0 kv h
          · rw [h]; exact hname

/-- Membership in `nonEmptyNames`: the name is non-empty and some selected
entry carries it. -/
theorem mem_nonEmptyNames_iff (root : XElem) (n : String) :
    n ∈ nonEmptyNames root ↔ n ≠ "" ∧ namedEntries (selectEntries root) n ≠ [] := by
  unfold nonEmptyNames
  rw [List.mem_filterMap]
  constructor
  · rintro ⟨e, he, hf⟩
    cases hga : getAttr e "name" with
    | none => rw [hga] at hf; dsimp only at hf; simp at hf
    | some m =>
      rw [hga] at hf
      dsimp only at hf
      by_cases hm : m = ""
      · rw [if_pos hm] at hf; simp at hf
      · rw [if_neg hm] at hf
        simp only [Option.some.injEq] at hf
        subst hf
        refine ⟨hm, ?_⟩
        exact List.ne_nil_of_mem
          (List.mem_filter.mpr ⟨he, by simp [hga]⟩)
  · rintro ⟨hn, hne⟩
    obtain ⟨e, he⟩ := List.exists_mem_of_ne_nil _ hne
    have hmem := List.mem_filter.mp he
    have hga : getAttr e "name" = some n := by simpa using hmem.2
    exact ⟨e, hmem.1, by rw [hga]; dsimp only; rw [if_neg hn]⟩

/-! ## Lemmas about the listing parser -/

theorem parseRow_good (headers : List String) (offsets : List Nat) (line : String) :
    ∀ kv ∈ parseRow headers offsets line, goodVal kv.2 := by
  unfold parseRow
  have main : ∀ (idxs : List Nat) (acc : FileRecord),
      (∀ kv ∈ acc, goodVal kv.2) →
      ∀ kv ∈ idxs.foldl (fun info index =>
        let subline := sliceField line offsets index
        if pyStrip subline = "" then info
        else dictInsert info (headers.getD index "") (PyVal.str subline)) acc,
      goodVal kv.2 := by
    intro idxs
    induction idxs with
    | nil => intro acc hacc kv hkv; exact hacc kv hkv
    | cons i t ih =>
      intro acc hacc kv hkv
      simp only [List.foldl_cons] at hkv
      refine ih _ ?_ kv hkv
      intro kv' hkv'
      by_cases hb : pyStrip (sliceField line offsets i) = ""
      · rw [if_pos hb] at hkv'
        exact hacc kv' hkv'
      · rw [if_neg hb] at hkv'
        rcases mem_dictInsert hkv' with h | h
        · exact hacc kv' h
        · rw [h]
          exact ⟨sliceField line offsets i, rfl, hb⟩
  exact main _ [] (by simp)

theorem parseDataRow_ok (headers : List String) (offsets : List Nat) (line : String)
    (nm : String) (info : FileRecord)
    (h : parseDataRow headers offsets line = .ok (nm, info)) :
    info = parseRow headers offsets line := by
  unfold parseDataRow at h
  dsimp only at h
  cases hget : dictGet? (parseRow headers offsets line) "Name" with
  | none => rw [hget] at h; simp at h
  | some v =>
    cases v with
    | str s =>
      rw [hget] at h
      dsimp only at h
      simp only [Except.ok.injEq, Prod.mk.injEq] at h
      exact h.2.symm
    | int i => rw [hget] at h; simp at h

theorem scanLines_good :
    ∀ (lines : List String) (st : ScanState) (files : List (String × FileRecord)),
    scanLines lines st = .ok files →
    (∀ rec ∈ st.files, ∀ kv ∈ rec.2, goodVal kv.2) →
    ∀ rec ∈ files, ∀ kv ∈ rec.2, goodVal kv.2 := by
  intro lines
  induction lines with
  | nil =>
    intro st files hok hst
    unfold scanLines at hok
    simp only [Except.ok.injEq] at hok
    rw [← hok]
    exact hst
  | cons line rest ih =>
    intro st files hok hst
    unfold scanLines at hok
    dsimp only at hok
    by_cases h1 : (!st.started && decide (4 < (pySplit line).length) && isDivider line) = true
    · rw [if_pos h1] at hok
      by_cases h2 : headersValid st.last = true
      · rw [if_pos h2] at hok
        exact ih _ files hok hst
      · rw [if_neg h2] at hok
        simp at hok
    · rw [if_neg h1] at hok
      by_cases h3 : st.started = true
      · rw [if_pos h3] at hok
        by_cases h4 : isDivider line = true
        · rw [if_pos h4] at hok
          simp only [Except.ok.injEq] at hok
          rw [← hok]
          exact hst
        · rw [if_neg h4] at hok
          cases hpd : parseDataRow st.headers st.offsets line with
          | error e => rw [hpd] at hok; simp at hok
          | ok pr =>
            cases pr with
            | mk nm info =>
              rw [hpd] at hok
              dsimp only at hok
              refine ih _ files hok ?_
              intro rec hrec
              rcases mem_dictInsert hrec with h | h
              · exact hst rec h
              · rw [h]
                intro kv hkv
                rw [parseDataRow_ok _ _ _ _ _ hpd] at hkv
                exact parseRow_good _ _ _ kv hkv
      · rw [if_neg h3] at hok
        exact ih _ files hok hst

/-! ## Claim theorems -/

/-- C1 counterexample: in a batch whose first archive has a mismatched
header, the whole scan aborts with the header error — the second archive,
which scans fine on its own, yields no inventory — refuting the claim that
a header mismatch is confined to the single archive. -/
theorem headerMismatch_aborts_batch_cx :
    scanroms [("a1", Except.ok badLines), ("a2", Except.ok goodLines)] =
      .error .headerMismatch ∧
    isOkE (scanroms [("a2", Except.ok goodLines)]) = true :=
  ⟨rfl, rfl⟩

/-- C1 (amended): a listing whose parse fails (header mismatch via `exit()`
or the Name `KeyError`) aborts the entire batch — the error escapes the
per-archive handler, no inventory is produced for any archive and the
remaining archives are not processed. -/
theorem headerMismatch_aborts_batch (name : String) (lines : List String)
    (e : ScanErr) (rest : List (String × Except Unit (List String)))
    (h : parseListing lines = .error e) :
    scanroms ((name, Except.ok lines) :: rest) = .error e := by
  unfold scanroms
  dsimp only
  rw [h]

/-- C1 witness: the amended theorem applied to the concrete bad listing. -/
theorem headerMismatch_aborts_batch_wit :
    scanroms [("a1", Except.ok badLines)] = .error .headerMismatch :=
  headerMismatch_aborts_batch "a1" badLines .headerMismatch [] rfl

/-- C2 counterexample: on a listing the parser accepts, the offsets the
code computes from the divider row differ from the offsets the claim's
recipe computes from the header tokens (which yields five offsets for six
columns). -/
theorem offsets_from_divider_cx :
    isOkE (parseListing goodLines) = true ∧
    computeOffsets (pySplit exDivider) (pySplit exHeader).length =
      [0, 11, 20, 26, 39, 53] ∧
    specOffsetsC2 (pySplit exHeader) = [0, 11, 20, 25, 31] ∧
    ([0, 11, 20, 26, 39, 53] : List Nat) ≠ [0, 11, 20, 25, 31] :=
  ⟨rfl, rfl, rfl, by decide⟩

/-- C2 (amended): for every accepted six-column header, the offsets are
`[0, 11, 20]` extended by accumulating `previous + len(token) + 1` over the
DIVIDER line's dash-group tokens at positions 1 through `len(headers) - 3`
(the second through fourth of the at-least-five groups), with the last
offset incremented by one — yielding one offset per header column. -/
theorem offsets_from_divider (headers : List String) (p0 p1 p2 p3 : String)
    (rest : List String) (hv : headersValid headers = true) :
    computeOffsets (p0 :: p1 :: p2 :: p3 :: rest) headers.length =
      [0, 11, 20, 21 + p1.length, 22 + p1.length + p2.length,
       24 + p1.length + p2.length + p3.length] := by
  have h6 : headers.length = 6 := by
    unfold headersValid at hv
    have h := ((Bool.and_eq_true _ _).mp hv).1
    simpa [validheaders] using h
  rw [h6]
  simp only [computeOffsets, appendOffsets, bumpLast]
  simp [List.foldl]
  omega

/-- C2 witness: the amended theorem applied to the concrete divider and
header rows. -/
theorem offsets_from_divider_wit :
    headersValid (pySplit exHeader) = true ∧
    computeOffsets ["-------------------", "-----", "------------",
      "------------", "------------------------"] (pySplit exHeader).length =
      [0, 11, 20, 26, 39, 53] :=
  ⟨by decide, by
    rw [offsets_from_divider (pySplit exHeader) _ _ _ _ _ (by decide)]
    decide⟩

/-- C3: last-write-wins for duplicated game names — whenever the walk
succeeds, the slot for a non-empty name `n` holds the game built from the
LAST element named `n` in document order. -/
theorem duplicate_game_last_wins (root : XElem) (games : List (String × Game))
    (n : String) (e : XElem) (hok : pullGames root = .ok games) (hn : n ≠ "")
    (hlast : (namedEntries (selectEntries root) n).getLast? = some e) :
    ∃ g, buildGame e = .ok g ∧ dictGet? games n = some g :=
  pullGamesAux_lookup_last _ _ _ _ _ hn hlast hok

/-- C3 witness: the theorem applied to a document with two elements named
`A`; the stored game is the one built from the second. -/
theorem duplicate_game_last_wins_wit :
    ∃ g, buildGame gA2 = .ok g ∧
      dictGet? [("A", [("name", GVal.str "A"), ("v", GVal.str "2")])] "A" =
        some g :=
  duplicate_game_last_wins dupDoc
    [("A", [("name", GVal.str "A"), ("v", GVal.str "2")])] "A" gA2 rfl
    (by decide) rfl

/-- C4 counterexample: on a document with two elements named `A`, the entry
stored under `A` is the one built from the SECOND element, not the first —
refuting first-occurrence-wins. -/
theorem duplicate_game_first_wins_cx :
    pullGames dupDoc = .ok [("A", [("name", GVal.str "A"), ("v", GVal.str "2")])] ∧
    buildGame gA1 = .ok [("name", GVal.str "A"), ("v", GVal.str "1")] ∧
    dictGet? [("A", [("name", GVal.str "A"), ("v", GVal.str "2")])] "A" ≠
      some [("name", GVal.str "A"), ("v", GVal.str "1")] :=
  ⟨rfl, rfl, by decide⟩

/-- C4 (amended): the LAST occurrence wins — every entry stored in the
games mapping under a duplicated (or any) non-empty name is the one built
from the last same-named element in document order. -/
theorem duplicate_game_lookup_from_last (root : XElem)
    (games : List (String × Game)) (n : String) (g : Game)
    (hok : pullGames root = .ok games) (hget : dictGet? games n = some g)
    (hn : n ≠ "") :
    ∃ e, (namedEntries (selectEntries root) n).getLast? = some e ∧
      buildGame e = .ok g := by
  by_cases hne : namedEntries (selectEntries root) n = []
  · have h0 := pullGamesAux_lookup_none (selectEntries root) [] games n hn hne hok
    rw [hget] at h0
    simp [dictGet?] at h0
  · obtain ⟨e, hlast⟩ := Option.isSome_iff_exists.mp
      ((List.getLast?_isSome).mpr hne)
    obtain ⟨g', hbg, hlook⟩ := pullGamesAux_lookup_last _ _ _ _ _ hn hlast hok
    rw [hget] at hlook
    refine ⟨e, hlast, ?_⟩
    rw [hbg, Option.some.inj hlook]

/-- C4 witness: the amended theorem applied to the duplicate-name
document. -/
theorem duplicate_game_lookup_from_last_wit :
    ∃ e, (namedEntries (selectEntries dupDoc) "A").getLast? = some e ∧
      buildGame e = .ok [("name", GVal.str "A"), ("v", GVal.str "2")] :=
  duplicate_game_lookup_from_last dupDoc
    [("A", [("name", GVal.str "A"), ("v", GVal.str "2")])] "A"
    [("name", GVal.str "A"), ("v", GVal.str "2")] rfl rfl (by decide)

/-- C5 counterexample: the line `-x` is classified a divider by the code
(every token merely STARTS with a dash) but not by the claim's rule (every
token consists solely of dashes). -/
theorem divider_all_dashes_cx :
    isDivider "-x" = true ∧ isDividerSpecC5 "-x" = false :=
  ⟨rfl, rfl⟩

/-- C5 (amended): a line is classified a divider iff every
whitespace-separated token on it STARTS with a `-` character (tokens need
not consist solely of dashes). -/
theorem divider_startswith_dash (line : String) :
    isDivider line = true ↔ ∀ p ∈ pySplit line, startsWithDash p = true := by
  simp [isDivider, List.all_eq_true]

/-- C5 witness: the amended characterization at a concrete line. -/
theorem divider_startswith_dash_wit :
    isDivider "--- -" = true ↔ ∀ p ∈ pySplit "--- -", startsWithDash p = true :=
  divider_startswith_dash "--- -"

/-- C6 counterexample: in the record parsed from a listing whose Size
column holds `123`, the stored Size value is the STRING `"123"`, not a
numeric value — refuting the claim that Size/Compressed are stored
numerically. -/
theorem size_field_numeric_cx :
    (parseListing goodLines).toOption.bind
      (fun files => (dictGet? files "Some Game (USA).sfc").bind
        (fun rec => dictGet? rec "Size")) = some (PyVal.str "123") ∧
    PyVal.isNum (PyVal.str "123") = false :=
  ⟨rfl, rfl⟩

/-- C6 (amended): every field stored in any `FileRecord` produced by the
listing parser — `Size` and `Compressed` included — is a string whose
stripped value is non-blank; blank-after-trim fields are omitted rather
than stored. -/
theorem record_fields_nonblank_strings (lines : List String)
    (files : List (String × FileRecord)) (nm col : String) (rec : FileRecord)
    (v : PyVal) (hok : parseListing lines = .ok files)
    (hrec : dictGet? files nm = some rec) (hv : dictGet? rec col = some v) :
    ∃ s, v = PyVal.str s ∧ pyStrip s ≠ "" := by
  have hgood := scanLines_good lines _ files hok (by simp)
  exact hgood (nm, rec) (dictGet?_mem hrec) (col, v) (dictGet?_mem hv)

/-- C6 witness: the amended theorem applied to the Size field of the
concrete parsed record. -/
theorem record_fields_nonblank_strings_wit :
    ∃ s, PyVal.str "123" = PyVal.str s ∧ pyStrip s ≠ "" :=
  record_fields_nonblank_strings goodLines goodFiles "Some Game (USA).sfc"
    "Size" goodRec (PyVal.str "123") rfl rfl rfl

/-- C7 counterexample: a document whose only game element carries the name
attribute `""` yields an empty games mapping — the attribute-carrying
element's name is not among the keys, refuting the claimed key-set
equality. -/
theorem games_keys_cx :
    pullGames emptyNameDoc = .ok [] ∧
    selectEntries emptyNameDoc = [gEmpty] ∧
    getAttr gEmpty "name" = some "" :=
  ⟨rfl, rfl, rfl⟩

/-- C7 (amended): every key of the games mapping is a non-empty name, and
the keys are exactly the NON-EMPTY name attribute values of the selected
entries (game elements, or machine elements when no game element exists);
elements whose name is missing or empty are dropped, never inserted. -/
theorem games_keys_nonempty_names (root : XElem) (games : List (String × Game))
    (hok : pullGames root = .ok games) :
    (∀ kv ∈ games, kv.1 ≠ "") ∧
    (∀ n : String, (dictGet? games n).isSome ↔ n ∈ nonEmptyNames root) := by
  have hkeys := pullGamesAux_keys_ne (selectEntries root) [] games hok (by simp)
  refine ⟨hkeys, ?_⟩
  intro n
  rw [mem_nonEmptyNames_iff]
  constructor
  · intro hsome
    obtain ⟨g, hg⟩ := Option.isSome_iff_exists.mp hsome
    have hn : n ≠ "" := hkeys (n, g) (dictGet?_mem hg)
    refine ⟨hn, ?_⟩
    intro hne
    have h0 := pullGamesAux_lookup_none (selectEntries root) [] games n hn hne hok
    rw [hg] at h0
    simp [dictGet?] at h0
  · rintro ⟨hn, hne⟩
    obtain ⟨e, hlast⟩ := Option.isSome_iff_exists.mp
      ((List.getLast?_isSome).mpr hne)
    obtain ⟨g, _, hlook⟩ := pullGamesAux_lookup_last _ _ _ _ _ hn hlast hok
    rw [hlook]
    rfl

/-- C7 witness: the amended theorem applied to the duplicate-name
document. -/
theorem games_keys_nonempty_names_wit :
    (∀ kv ∈ [("A", [("name", GVal.str "A"), ("v", GVal.str "2")])],
      kv.1 ≠ ("" : String)) ∧
    (∀ n : String,
      (dictGet? [("A", [("name", GVal.str "A"), ("v", GVal.str "2")])] n).isSome ↔
        n ∈ nonEmptyNames dupDoc) :=
  games_keys_nonempty_names dupDoc
    [("A", [("name", GVal.str "A"), ("v", GVal.str "2")])] rfl

/-- C8 (code bug): on a root with archives at depth one, two and three,
the scan's glob (no `recursive=True`, so `**` matches exactly one
directory component) returns only the depth-two file, while the claimed
recursive scan returns all three. -/
theorem findArchives_one_level :
    findArchives [exFs] [] = [["a", "b.zip"]] ∧
    findArchivesSpecC8 [exFs] [] =
      [["d.zip"], ["a", "b.zip"], ["a", "x", "c.zip"]] :=
  ⟨rfl, rfl⟩

/-- C9: the scratch directory is created before extraction and removed at
the end of the pass on every execution path — whether extraction raises,
the body raises or everything succeeds, the operation trace starts with
`makedirs` followed by the extraction and ends with `rmtree`, and the
body's or extraction's outcome is propagated after cleanup. -/
theorem tempzip_scoped_cleanup {α : Type} (unique zipfile : String)
    (extractRes : Res Unit) (body : String → Res α × List FsOp) :
    ∃ mid, (tempzipRun unique zipfile extractRes body).2 =
        FsOp.makedirs unique :: FsOp.extract zipfile unique ::
          (mid ++ [FsOp.rmtree unique]) ∧
      (tempzipRun unique zipfile extractRes body).1 =
        (match extractRes with
         | .exn e => Res.exn e
         | .ok _ => (body unique).1) := by
  cases extractRes with
  | exn e => exact ⟨[], by simp [tempzipRun, tempdirRun]⟩
  | ok u => exact ⟨(body unique).2, by simp [tempzipRun, tempdirRun]⟩

/-- C10: a listing with a valid six-column header whose data row has a
blank Name column makes the whole batch abort with the uncaught `KeyError`
— the second, well-formed archive is never processed. -/
theorem blank_name_keyError_aborts_batch :
    headersValid (pySplit exHeader) = true ∧
    scanroms [("b1", Except.ok blankNameLines), ("b2", Except.ok goodLines)] =
      .error .keyError :=
  ⟨rfl, rfl⟩

end Datload
